import Mathlib

/-!
Shallow embedding of the run-management service in `src/main.py`.

The external reasoning engine (`MedicalCoderSwarm`) is an opaque collaborator:
one call submits a case and either fails (construction or execution raises)
or yields a result snapshot (`swarm.to_dict()`).  We model one whole engine
interaction for a case as a value of `Option Nat`: `none` means the
invocation raised, `some output` means it succeeded with an opaque snapshot
document, represented by a `Nat` since this layer never interprets it.

Python's `uuid4` is modelled as an injective supply of non-empty identifier
strings indexed by how many identifiers have been drawn so far; the service
state threads that counter.  The SQLAlchemy table `runs` is modelled as a
`List RunRecord` in insertion order: `db.add`/`db.commit` appends,
`db.query(RunRecord).filter(...).first()` is `List.find?`,
`.filter(...).all()` is `List.filter`, `.all()` is the whole list.
-/

/-- Request body of `POST /run/` (pydantic model `PatientCase`). -/
structure PatientCase where
  patient_id : String
  patient_documentation : String
  max_loops : Nat
deriving DecidableEq

/-- Row of the `runs` table (SQLAlchemy model `RunRecord`); the surrogate
integer primary key plays no role in the service logic and is omitted. -/
structure RunRecord where
  run_id : String
  patient_id : String
  output : Nat
deriving DecidableEq

/-- Response body of a successful run (pydantic model `RunResponse`). -/
structure RunResponse where
  run_id : String
  output : Nat
deriving DecidableEq

/-- Model of Python's `uuid4`: an injective supply of non-empty identifier
strings, indexed by how many identifiers were drawn before this one. -/
def uuid4 (n : Nat) : String :=
  String.mk ('u' :: List.replicate n 'u')

/-- Outcome of `run_task` as seen by the HTTP caller: `200 {run_id, output}`
or the `HTTPException(500)` raised on any failure. -/
inductive RunResult where
  | ok (run_id : String) (output : Nat)
  | serverError
deriving DecidableEq

/-- `run_task` (`src/main.py` lines 94-135): draw a `uuid4`, invoke the
engine; on success persist a `RunRecord` and return `{run_id, output}`, on
failure return a 500 and touch nothing.  The result is the HTTP outcome
together with the updated uuid counter and the updated store. -/
def run_task (eng : PatientCase → Option Nat) (pc : PatientCase)
    (ctr : Nat) (store : List RunRecord) :
    RunResult × Nat × List RunRecord :=
  let rid := uuid4 ctr
  match eng pc with
  | some output =>
      (RunResult.ok rid output, ctr + 1,
        store ++ [{ run_id := rid, patient_id := pc.patient_id, output := output }])
  | none => (RunResult.serverError, ctr + 1, store)

/-- Mutable state visible to batch background units: the uuid supply, the
`runs` table, and the request-scoped `responses` list they all append to. -/
structure BatchState where
  counter : Nat
  store : List RunRecord
  responses : List RunResponse
deriving DecidableEq

/-- `process_batch` (`src/main.py` lines 154-188), the body of one background
unit: draw a `uuid4`, invoke the engine; on success persist a record and
append a `RunResponse` to the shared collector; on failure only log —
no record, no collector entry, no error propagated. -/
def process_batch (eng : PatientCase → Option Nat) (pc : PatientCase)
    (s : BatchState) : BatchState :=
  let rid := uuid4 s.counter
  match eng pc with
  | some output =>
      { counter := s.counter + 1,
        store := s.store ++
          [{ run_id := rid, patient_id := pc.patient_id, output := output }],
        responses := s.responses ++ [{ run_id := rid, output := output }] }
  | none => { s with counter := s.counter + 1 }

/-- One background unit as scheduled by `background_tasks.add_task`: the
closure `process_batch` captures the request's `db` session (identified here
by a `Nat` handle) and the case it will process. -/
structure ScheduledTask where
  sessionId : Nat
  pcase : PatientCase
deriving DecidableEq

/-- `run_batch` (`src/main.py` lines 143-193): create the empty `responses`
collector, schedule one background unit per case — each closing over the
single request-scoped session `db` — and return `responses` at once, before
any unit has run.  Result: the HTTP response body and the scheduled units. -/
def run_batch (patient_cases : List PatientCase) (db : Nat) :
    List RunResponse × List ScheduledTask :=
  let responses : List RunResponse := []
  (responses, patient_cases.map (fun c => { sessionId := db, pcase := c }))

/-- Execution of the scheduled background units after the response is sent
(starlette runs them in order): fold `process_batch` over the cases. -/
def exec_batch (eng : PatientCase → Option Nat) (cases : List PatientCase)
    (s : BatchState) : BatchState :=
  match cases with
  | [] => s
  | c :: rest => exec_batch eng rest (process_batch eng c s)

/-- Query body of `GET /history/` (pydantic model `RunQuery`); both filters
default to `None`. -/
structure RunQuery where
  run_id : Option String
  patient_id : Option String
deriving DecidableEq

/-- Python truthiness of an `Optional[str]`: `None` and `""` are falsy. -/
def truthy : Option String → Bool
  | none => false
  | some s => decide (s ≠ "")

/-- Outcome of `GET /history/`: one record, several records, a 404, or
a 400. -/
inductive QueryResult where
  | single (r : RunRecord)
  | multiple (rs : List RunRecord)
  | notFound
  | badRequest
deriving DecidableEq

/-- `query_history` (`src/main.py` lines 197-252): if `run_id` is truthy,
`.filter(run_id == ...).first()` or 404; else if `patient_id` is truthy,
`.filter(patient_id == ...).all()` or 404 when empty; else 400. -/
def query_history (q : RunQuery) (store : List RunRecord) : QueryResult :=
  if truthy q.run_id then
    match store.find? (fun r => r.run_id == q.run_id.getD "") with
    | some r => QueryResult.single r
    | none => QueryResult.notFound
  else if truthy q.patient_id then
    let results := store.filter (fun r => r.patient_id == q.patient_id.getD "")
    if results.isEmpty then QueryResult.notFound
    else QueryResult.multiple results
  else QueryResult.badRequest

/-- `list_all_runs` (`src/main.py` lines 256-269): `db.query(RunRecord).all()`
returns every persisted record. -/
def list_all_runs (store : List RunRecord) : List RunRecord :=
  store

/-- One submission event hitting the service: either a synchronous
`POST /run/` or the later execution of one batch background unit.  An
arbitrary interleaving of sequential and concurrent submissions is an
arbitrary list of these events, since each event's uuid draw and store
insert are atomic. -/
inductive Submission where
  | single (pc : PatientCase)
  | batchUnit (pc : PatientCase)
deriving DecidableEq

/-- The case an event carries. -/
def Submission.pcase : Submission → PatientCase
  | .single pc => pc
  | .batchUnit pc => pc

/-- Effect of one submission event on the service state. -/
def system_step (eng : PatientCase → Option Nat) (ev : Submission)
    (s : BatchState) : BatchState :=
  match ev with
  | .single pc =>
      let r := run_task eng pc s.counter s.store
      { counter := r.2.1, store := r.2.2, responses := s.responses }
  | .batchUnit pc => process_batch eng pc s

/-- Effect of a whole sequence of submission events. -/
def system_trace (eng : PatientCase → Option Nat) (evs : List Submission)
    (s : BatchState) : BatchState :=
  match evs with
  | [] => s
  | ev :: rest => system_trace eng rest (system_step eng ev s)

/-- The record a successful submission with counter `ctr` persists. -/
def mkRecord (ctr : Nat) (pc : PatientCase) (output : Nat) : RunRecord :=
  { run_id := uuid4 ctr, patient_id := pc.patient_id, output := output }

/- Concrete cases and engines used in scenario theorems and witnesses. -/

/-- A concrete patient case. -/
def caseA : PatientCase :=
  { patient_id := "P1", patient_documentation := "docA", max_loops := 1 }

/-- A second concrete patient case. -/
def caseB : PatientCase :=
  { patient_id := "P2", patient_documentation := "docB", max_loops := 1 }

/-- A third concrete patient case. -/
def caseC : PatientCase :=
  { patient_id := "P3", patient_documentation := "docC", max_loops := 1 }

/-- An engine that fails exactly on `caseB` (patient "P2") and yields
snapshot `7` otherwise. -/
def engFail2 : PatientCase → Option Nat :=
  fun pc => if pc.patient_id == "P2" then none else some 7

/- ### Basic facts about the uuid model -/

/-- The uuid supply never yields the empty string. -/
theorem uuid4_ne_empty (n : Nat) : uuid4 n ≠ "" := by
  intro h
  have h2 : ('u' :: List.replicate n 'u') = ([] : List Char) :=
    congrArg String.data h
  exact List.cons_ne_nil _ _ h2

/-- The uuid supply is injective: distinct draws give distinct identifiers. -/
theorem uuid4_injective : Function.Injective uuid4 := by
  intro m n h
  have h2 : ('u' :: List.replicate m 'u') = ('u' :: List.replicate n 'u') :=
    congrArg String.data h
  have h3 : List.replicate m 'u' = List.replicate n 'u' :=
    (List.cons.injEq _ _ _ _ ▸ h2).2
  have h4 := congrArg List.length h3
  simpa using h4

/- ### Claim theorems -/

/-- C1: for every single-run submission whose engine invocation (and hence
persistence) succeeds, `run_task` returns `{run_id, output}` with the
engine's snapshot as output, and the store after the call is the store
before plus exactly one new `RunRecord` carrying that `run_id`, the
caller-supplied `patient_id` and that same output. -/
theorem run_task_success_persists_and_returns
    (eng : PatientCase → Option Nat) (pc : PatientCase)
    (output ctr : Nat) (store : List RunRecord)
    (hok : eng pc = some output) :
    run_task eng pc ctr store =
      (RunResult.ok (uuid4 ctr) output, ctr + 1,
        store ++ [mkRecord ctr pc output]) := by
  simp [run_task, hok, mkRecord]

/-- Witness for C1 at a concrete input. -/
theorem run_task_success_persists_and_returns_witness :
    run_task (fun _ => some 5) caseA 0 [] =
      (RunResult.ok (uuid4 0) 5, 1, [mkRecord 0 caseA 5]) :=
  run_task_success_persists_and_returns (fun _ => some 5) caseA 5 0 [] rfl

/-- C3: for every single-run submission whose engine invocation fails,
`run_task` returns a server error (HTTP 500) and the store is exactly the
same after the call as before it. -/
theorem run_task_failure_no_persistence
    (eng : PatientCase → Option Nat) (pc : PatientCase)
    (ctr : Nat) (store : List RunRecord)
    (hfail : eng pc = none) :
    run_task eng pc ctr store = (RunResult.serverError, ctr + 1, store) := by
  simp [run_task, hfail]

/-- Witness for C3 at a concrete input. -/
theorem run_task_failure_no_persistence_witness :
    run_task (fun _ => none) caseA 0 [mkRecord 5 caseB 7] =
      (RunResult.serverError, 1, [mkRecord 5 caseB 7]) :=
  run_task_failure_no_persistence (fun _ => none) caseA 0 [mkRecord 5 caseB 7] rfl

/-- C9: for every input list of cases and every session, the body of the
batch endpoint's HTTP response is the empty list — `responses` is returned
before any scheduled background unit has run. -/
theorem run_batch_response_empty (cases : List PatientCase) (db : Nat) :
    (run_batch cases db).1 = [] :=
  rfl

/- ### Uniqueness of run ids (C2) -/

/-- Every run id in the store was drawn from the uuid supply strictly before
position `ctr`. -/
def StoreIdsBelow (ctr : Nat) (store : List RunRecord) : Prop :=
  ∀ r ∈ store, ∃ k, k < ctr ∧ r.run_id = uuid4 k

/-- The persisted run ids are pairwise distinct. -/
def DistinctRunIds (store : List RunRecord) : Prop :=
  store.Pairwise (fun a b => a.run_id ≠ b.run_id)

/-- Appending a record whose id is the current draw preserves both store
invariants. -/
theorem append_fresh_inv (ctr : Nat) (store : List RunRecord) (r : RunRecord)
    (hr : r.run_id = uuid4 ctr)
    (h1 : StoreIdsBelow ctr store) (h2 : DistinctRunIds store) :
    StoreIdsBelow (ctr + 1) (store ++ [r]) ∧ DistinctRunIds (store ++ [r]) := by
  constructor
  · intro x hx
    rcases List.mem_append.mp hx with hx | hx
    · rcases h1 x hx with ⟨k, hk, hid⟩
      exact ⟨k, Nat.lt_succ_of_lt hk, hid⟩
    · rcases List.mem_singleton.mp hx with rfl
      exact ⟨ctr, Nat.lt_succ_self ctr, hr⟩
  · rw [DistinctRunIds, List.pairwise_append]
    refine ⟨h2, List.pairwise_singleton _ _, ?_⟩
    intro a ha b hb
    rcases List.mem_singleton.mp hb with rfl
    rcases h1 a ha with ⟨k, hk, hid⟩
    intro hEq
    rw [hid, hr] at hEq
    have hkc : k = ctr := uuid4_injective hEq
    exact absurd (hkc ▸ hk) (Nat.lt_irrefl ctr)

/-- One submission event preserves both store invariants. -/
theorem system_step_inv (eng : PatientCase → Option Nat) (ev : Submission)
    (s : BatchState)
    (h1 : StoreIdsBelow s.counter s.store) (h2 : DistinctRunIds s.store) :
    StoreIdsBelow (system_step eng ev s).counter (system_step eng ev s).store ∧
      DistinctRunIds (system_step eng ev s).store := by
  cases ev with
  | single pc =>
      cases h : eng pc with
      | some output =>
          have := append_fresh_inv s.counter s.store
            { run_id := uuid4 s.counter, patient_id := pc.patient_id, output := output }
            rfl h1 h2
          simpa [system_step, run_task, h] using this
      | none =>
          refine ⟨?_, ?_⟩
          · intro x hx
            have hx2 : x ∈ s.store := by simpa [system_step, run_task, h] using hx
            rcases h1 x hx2 with ⟨k, hk, hid⟩
            simp only [system_step, run_task, h]
            exact ⟨k, Nat.lt_succ_of_lt hk, hid⟩
          · simpa [system_step, run_task, h] using h2
  | batchUnit pc =>
      cases h : eng pc with
      | some output =>
          have := append_fresh_inv s.counter s.store
            { run_id := uuid4 s.counter, patient_id := pc.patient_id, output := output }
            rfl h1 h2
          simpa [system_step, process_batch, h] using this
      | none =>
          refine ⟨?_, ?_⟩
          · intro x hx
            have hx2 : x ∈ s.store := by simpa [system_step, process_batch, h] using hx
            rcases h1 x hx2 with ⟨k, hk, hid⟩
            simp only [system_step, process_batch, h]
            exact ⟨k, Nat.lt_succ_of_lt hk, hid⟩
          · simpa [system_step, process_batch, h] using h2

/-- A whole trace of submission events preserves both store invariants. -/
theorem system_trace_inv (eng : PatientCase → Option Nat) :
    ∀ (evs : List Submission) (s : BatchState),
      StoreIdsBelow s.counter s.store → DistinctRunIds s.store →
      DistinctRunIds (system_trace eng evs s).store := by
  intro evs
  induction evs with
  | nil => intro s _ h2; exact h2
  | cons ev rest ih =>
      intro s h1 h2
      rcases system_step_inv eng ev s h1 h2 with ⟨h1s, h2s⟩
      exact ih (system_step eng ev s) h1s h2s

/-- C2: across every interleaving of sequential single-run submissions and
batch background units drawing from the shared uuid supply, the run ids of
all records ever created in the store are pairwise distinct. -/
theorem run_ids_pairwise_distinct (eng : PatientCase → Option Nat)
    (evs : List Submission) :
    DistinctRunIds
      (system_trace eng evs { counter := 0, store := [], responses := [] }).store := by
  refine system_trace_inv eng evs _ ?_ ?_
  · intro r hr; cases hr
  · exact List.Pairwise.nil

/- ### Batch failure isolation (C5) and batch structure (C6) -/

/-- C5: a background unit whose engine call fails contributes nothing — it
persists no record and appends nothing to the shared collector (and its type
surfaces no error to the batch caller); and in the concrete 3-case batch
where case 2's engine call fails, executing the scheduled units from an
empty store yields exactly the records for cases 1 and 3, while the batch
caller's response body contains no error (it is empty). -/
theorem batch_unit_failure_contributes_nothing :
    (∀ (eng : PatientCase → Option Nat) (pc : PatientCase) (s : BatchState),
        eng pc = none →
          (process_batch eng pc s).store = s.store ∧
            (process_batch eng pc s).responses = s.responses) ∧
    (exec_batch engFail2 [caseA, caseB, caseC]
          { counter := 0, store := [], responses := [] } =
        { counter := 3,
          store := [mkRecord 0 caseA 7, mkRecord 2 caseC 7],
          responses := [{ run_id := uuid4 0, output := 7 },
            { run_id := uuid4 2, output := 7 }] } ∧
      (run_batch [caseA, caseB, caseC] 0).1 = []) := by
  refine ⟨?_, ?_, rfl⟩
  · intro eng pc s h
    constructor <;> simp [process_batch, h]
  · rfl

/-- Witness for C5's failing-unit clause at a concrete input. -/
theorem batch_unit_failure_contributes_nothing_witness :
    (process_batch engFail2 caseB
        { counter := 1, store := [mkRecord 0 caseA 7],
          responses := [{ run_id := uuid4 0, output := 7 }] }).store =
      [mkRecord 0 caseA 7] :=
  (batch_unit_failure_contributes_nothing.1 engFail2 caseB
    { counter := 1, store := [mkRecord 0 caseA 7],
      responses := [{ run_id := uuid4 0, output := 7 }] } rfl).1

/-- C6 is refuted by the code: in a concrete batch of two distinct cases
submitted with request session handle 7, both scheduled background units
capture that same request-scoped session — no unit gets its own storage
session (and all of them append to the single shared `responses` list the
closure captured). -/
theorem run_batch_units_share_session :
    caseA ≠ caseB ∧
      ((run_batch [caseA, caseB] 7).2.map (fun t => t.sessionId)) = [7, 7] := by
  exact ⟨by decide, rfl⟩

/- ### Submit-then-lookup round trip (C7) -/

/-- `find?` skips a prefix on which the predicate is everywhere false. -/
theorem find?_append_of_forall_false {α : Type} (p : α → Bool)
    (l1 l2 : List α) (h : ∀ a ∈ l1, p a = false) :
    (l1 ++ l2).find? p = l2.find? p := by
  induction l1 with
  | nil => rfl
  | cons a t ih =>
      have ha : p a = false := h a (List.mem_cons_self a t)
      simp only [List.cons_append, List.find?, ha]
      exact ih (fun x hx => h x (List.mem_cons_of_mem a hx))

/-- C7: for every single-run submission the engine completes successfully and
whose freshly drawn run id does not occur in the prior store (guaranteed by
the uuid supply), querying history by that run id immediately after
`run_task` returns yields exactly that run's record. -/
theorem submit_then_lookup_roundtrip
    (eng : PatientCase → Option Nat) (pc : PatientCase)
    (output ctr : Nat) (store : List RunRecord)
    (hok : eng pc = some output)
    (hfresh : ∀ r ∈ store, r.run_id ≠ uuid4 ctr) :
    query_history { run_id := some (uuid4 ctr), patient_id := none }
        (run_task eng pc ctr store).2.2 =
      QueryResult.single (mkRecord ctr pc output) := by
  have hstore : (run_task eng pc ctr store).2.2 =
      store ++ [mkRecord ctr pc output] := by
    simp [run_task, hok, mkRecord]
  have htr : truthy (some (uuid4 ctr)) = true := by
    simp [truthy, uuid4_ne_empty ctr]
  have hskip : (store ++ [mkRecord ctr pc output]).find?
      (fun r => r.run_id == uuid4 ctr) =
      [mkRecord ctr pc output].find? (fun r => r.run_id == uuid4 ctr) :=
    find?_append_of_forall_false _ store _
      (fun r hr => beq_eq_false_iff_ne.mpr (hfresh r hr))
  rw [hstore]
  simp only [query_history, htr, if_true, Option.getD_some]
  rw [hskip]
  simp [List.find?, mkRecord]

/-- Witness for C7 at a concrete input. -/
theorem submit_then_lookup_roundtrip_witness :
    query_history { run_id := some (uuid4 0), patient_id := none }
        (run_task (fun _ => some 5) caseA 0 []).2.2 =
      QueryResult.single (mkRecord 0 caseA 5) :=
  submit_then_lookup_roundtrip (fun _ => some 5) caseA 5 0 [] rfl (by simp)

/- ### Cardinality of the full listing (C8) -/

/-- Along a trace of submission events, the store grows by exactly one
record per event whose engine call succeeds. -/
theorem system_trace_store_length (eng : PatientCase → Option Nat) :
    ∀ (evs : List Submission) (s : BatchState),
      (system_trace eng evs s).store.length =
        s.store.length + evs.countP (fun ev => (eng ev.pcase).isSome) := by
  intro evs
  induction evs with
  | nil => intro s; simp [system_trace]
  | cons ev rest ih =>
      intro s
      cases ev with
      | single pc =>
          cases h : eng pc with
          | some output =>
              simp [system_trace, system_step, run_task, h, Submission.pcase,
                List.countP_cons, ih]
              omega
          | none =>
              simp [system_trace, system_step, run_task, h, Submission.pcase,
                List.countP_cons, ih]
      | batchUnit pc =>
          cases h : eng pc with
          | some output =>
              simp [system_trace, system_step, process_batch, h,
                Submission.pcase, List.countP_cons, ih]
              omega
          | none =>
              simp [system_trace, system_step, process_batch, h,
                Submission.pcase, List.countP_cons, ih]

/-- C8: `list_all_runs` returns every persisted record unconditionally, and
after any sequence of attempted runs starting from an empty store its
cardinality equals the number of attempts whose engine call completed
without error, however many were attempted. -/
theorem list_all_runs_complete_and_cardinality :
    (∀ store : List RunRecord, list_all_runs store = store) ∧
    (∀ (eng : PatientCase → Option Nat) (evs : List Submission),
        (list_all_runs
            (system_trace eng evs
              { counter := 0, store := [], responses := [] }).store).length =
          evs.countP (fun ev => (eng ev.pcase).isSome)) := by
  constructor
  · intro store; rfl
  · intro eng evs
    simpa [list_all_runs] using
      system_trace_store_length eng evs { counter := 0, store := [], responses := [] }

/- ### Empty-string filters (C10) -/

/-- C10: `query_history` treats empty-string filters as absent — for every
store, a query whose `run_id` is the empty string and whose `patient_id` is
the empty string or not supplied fails with a 400 `badRequest` (never a 404,
never a match), so the run-id branch runs only on a non-empty string. -/
theorem empty_string_filters_bad_request
    (store : List RunRecord) (pid : Option String)
    (hp : pid = none ∨ pid = some "") :
    query_history { run_id := some "", patient_id := pid } store =
      QueryResult.badRequest := by
  rcases hp with h | h <;> subst h <;> rfl

/-- Witness for C10: even with a persisted record whose `run_id` and
`patient_id` are both the empty string, the all-empty query is a 400. -/
theorem empty_string_filters_bad_request_witness :
    query_history { run_id := some "", patient_id := some "" }
        [{ run_id := "", patient_id := "", output := 0 }] =
      QueryResult.badRequest :=
  empty_string_filters_bad_request
    [{ run_id := "", patient_id := "", output := 0 }] (some "") (Or.inr rfl)

/- ### Query case analysis (C4) -/

/-- C4: for every store state and every query, `query_history` implements
the spec's case analysis.  If `run_id` is given (a non-empty string), it
returns a single stored record bearing that run id, or fails `notFound`
exactly when no stored record bears it.  Otherwise, if `patient_id` is given
(a non-empty string), it returns a non-empty listing containing precisely
the stored records with that patient id, or fails `notFound` when none
match.  If neither filter is given, it fails `badRequest`. -/
theorem query_history_case_analysis (q : RunQuery) (store : List RunRecord) :
    (∀ s : String, q.run_id = some s → s ≠ "" →
        ((∃ r, query_history q store = QueryResult.single r ∧
            r ∈ store ∧ r.run_id = s) ∨
          (query_history q store = QueryResult.notFound ∧
            ∀ r ∈ store, r.run_id ≠ s))) ∧
    (truthy q.run_id = false →
      ∀ p : String, q.patient_id = some p → p ≠ "" →
        ((∃ rs, query_history q store = QueryResult.multiple rs ∧ rs ≠ [] ∧
            ∀ r, r ∈ rs ↔ (r ∈ store ∧ r.patient_id = p)) ∨
          (query_history q store = QueryResult.notFound ∧
            ∀ r ∈ store, r.patient_id ≠ p))) ∧
    (truthy q.run_id = false → truthy q.patient_id = false →
      query_history q store = QueryResult.badRequest) := by
  refine ⟨?_, ?_, ?_⟩
  · intro s hs hne
    have htr : truthy q.run_id = true := by simp [hs, truthy, hne]
    have hgd : q.run_id.getD "" = s := by rw [hs]; rfl
    have hq : query_history q store =
        match store.find? (fun r => r.run_id == s) with
        | some r => QueryResult.single r
        | none => QueryResult.notFound := by
      simp only [query_history, htr, if_true, hgd]
    cases hfind : store.find? (fun r => r.run_id == s) with
    | some r =>
        left
        refine ⟨r, ?_, List.mem_of_find?_eq_some hfind, ?_⟩
        · rw [hq, hfind]
        · have hp := List.find?_some hfind
          exact eq_of_beq hp
    | none =>
        right
        constructor
        · rw [hq, hfind]
        · intro r hr
          have hp := List.find?_eq_none.mp hfind r hr
          simpa using hp
  · intro hrf p hp hpne
    have htr : truthy q.patient_id = true := by simp [hp, truthy, hpne]
    have hgd : q.patient_id.getD "" = p := by rw [hp]; rfl
    have hq : query_history q store =
        (if (store.filter (fun r => r.patient_id == p)).isEmpty then
          QueryResult.notFound
        else QueryResult.multiple (store.filter (fun r => r.patient_id == p))) := by
      simp only [query_history, hrf, htr, if_true, Bool.false_eq_true,
        if_false, hgd]
    cases hfil : store.filter (fun r => r.patient_id == p) with
    | nil =>
        right
        rw [hfil] at hq
        refine ⟨by simpa using hq, ?_⟩
        intro r hr hcon
        have hmem : r ∈ store.filter (fun r => r.patient_id == p) := by
          rw [List.mem_filter]
          exact ⟨hr, by simp [hcon]⟩
        rw [hfil] at hmem
        cases hmem
    | cons a t =>
        left
        rw [hfil] at hq
        refine ⟨a :: t, by simpa using hq, List.cons_ne_nil a t, ?_⟩
        intro r
        rw [← hfil, List.mem_filter]
        constructor
        · rintro ⟨h1, h2⟩
          exact ⟨h1, by simpa using h2⟩
        · rintro ⟨h1, h2⟩
          exact ⟨h1, by simp [h2]⟩
  · intro h1 h2
    simp [query_history, h1, h2]

/-- Witness for C4 at a concrete input: the no-filter query is a 400. -/
theorem query_history_case_analysis_witness :
    query_history { run_id := none, patient_id := none } [] =
      QueryResult.badRequest :=
  (query_history_case_analysis { run_id := none, patient_id := none } []).2.2
    rfl rfl
